import Mathlib

/-!
Shallow embedding of the rentwise rent-schedule calculator.

The source operates on JavaScript `Date` values at day granularity (every
date it builds is a midnight timestamp).  We embed such a value as a
canonical calendar-date triple (year, zero-based month, one-based day).
JavaScript field setters (`setFullYear`, `setMonth`, `setDate`) renormalize
out-of-range fields: months carry into years by floor division, and day
overflow or underflow carries through the actual month lengths.  The
normalization is `mkDate` below; day carrying is written with an explicit
fuel that is always large enough, so every definition is a computable
structural recursion.

Monetary values (`monthly_rent`, percentages, row totals) are embedded as
rationals, giving the exact arithmetic the formulas denote.
-/

/-- A calendar date as held by a JavaScript `Date` at day granularity:
year, zero-based month (0 = January), one-based day of month. -/
structure CDate where
  year : Int
  month : Int
  day : Int
deriving DecidableEq, Repr

/-- Gregorian leap-year test, as implicit in JavaScript date arithmetic. -/
def isLeap (y : Int) : Bool :=
  (y % 4 == 0 && y % 100 != 0) || y % 400 == 0

/-- Number of days in month `m` (zero-based) of year `y`. -/
def daysInMonth (y m : Int) : Int :=
  if m = 1 then (if isLeap y then 29 else 28)
  else if m = 3 ∨ m = 5 ∨ m = 8 ∨ m = 10 then 30
  else 31

/-- Carry day overflow forward through month lengths (fuel-indexed). -/
def rollF : Nat → Int → Int → Int → CDate
  | 0, y, m, d => ⟨y, m, d⟩
  | fuel + 1, y, m, d =>
    if daysInMonth y m < d then
      if m = 11 then rollF fuel (y + 1) 0 (d - daysInMonth y m)
      else rollF fuel y (m + 1) (d - daysInMonth y m)
    else ⟨y, m, d⟩

/-- Carry day underflow backward through month lengths (fuel-indexed). -/
def rollB : Nat → Int → Int → Int → CDate
  | 0, y, m, d => ⟨y, m, d⟩
  | fuel + 1, y, m, d =>
    if d < 1 then
      if m = 0 then rollB fuel (y - 1) 11 (d + daysInMonth (y - 1) 11)
      else rollB fuel y (m - 1) (d + daysInMonth y (m - 1))
    else ⟨y, m, d⟩

/-- JavaScript `MakeDay`: normalize an arbitrary (year, month, day) field
triple to a canonical calendar date.  Month overflow carries into years by
floor division (for the positive divisor 12, `Int.ediv`/`Int.emod` are
exactly floor division), then the day carries through real month lengths.
The fuel bounds below always exceed the number of carry steps needed. -/
def mkDate (y mb d : Int) : CDate :=
  if d < 1 then rollB ((1 - d).toNat / 28 + 1 + 1) (y + mb / 12) (mb % 12) d
  else rollF (d.toNat / 28 + 1 + 1) (y + mb / 12) (mb % 12) d

/-- `date.setFullYear(y)` on a canonical date. -/
def setFullYearD (dt : CDate) (y : Int) : CDate := mkDate y dt.month dt.day

/-- `date.setMonth(m)` on a canonical date. -/
def setMonthD (dt : CDate) (m : Int) : CDate := mkDate dt.year m dt.day

/-- `date.setDate(d)` on a canonical date. -/
def setDateD (dt : CDate) (d : Int) : CDate := mkDate dt.year dt.month d

/-- Timestamp comparison `a <= b` of two canonical dates (lexicographic). -/
def dleD (a b : CDate) : Prop :=
  a.year < b.year ∨ (a.year = b.year ∧
    (a.month < b.month ∨ (a.month = b.month ∧ a.day ≤ b.day)))

/-- Timestamp comparison `a < b` of two canonical dates (lexicographic). -/
def dltD (a b : CDate) : Prop :=
  a.year < b.year ∨ (a.year = b.year ∧
    (a.month < b.month ∨ (a.month = b.month ∧ a.day < b.day)))

instance (a b : CDate) : Decidable (dleD a b) := by unfold dleD; exact inferInstance

instance (a b : CDate) : Decidable (dltD a b) := by unfold dltD; exact inferInstance

/-- The triple is a canonical calendar date (what `new Date` string parsing
and every normalized `Date` yields). -/
def isCanonDate (dt : CDate) : Prop :=
  0 ≤ dt.month ∧ dt.month ≤ 11 ∧ 1 ≤ dt.day ∧ dt.day ≤ daysInMonth dt.year dt.month

instance (dt : CDate) : Decidable (isCanonDate dt) := by
  unfold isCanonDate; exact inferInstance

/-- A tenant record as consumed by the calculator (the fields of the
`tenants` row that the rent-schedule functions read). -/
structure Tenant where
  contract_start_date : CDate
  contract_period_years : Nat
  contract_period_months : Nat
  monthly_rent : ℚ
  rent_frequency : String
  rent_increment_percentage : ℚ
  rent_increment_interval_years : Int
deriving DecidableEq, Repr

/-- `getFrequencyMonths` from the tenants page / tenant form: lookup in the
frequency map with fallback `|| 1`. -/
def getFrequencyMonths (frequency : String) : Nat :=
  if frequency = "monthly" then 1
  else if frequency = "bi-monthly" then 2
  else if frequency = "tri-monthly" then 3
  else if frequency = "semi-annually" then 6
  else if frequency = "yearly" then 12
  else 1

/-- `calculateContractEndDate(startDate, years, months)`: `null` for an
absent start date or a zero duration, else start with `years` added to the
year field, `months` added to the month field, and one subtracted from the
day field, each step renormalizing as JavaScript does. -/
def calculateContractEndDate (startDate : Option CDate) (years months : Nat) :
    Option CDate :=
  match startDate with
  | none => none
  | some s =>
    if years = 0 ∧ months = 0 then none
    else
      let e1 := setFullYearD s (s.year + (years : Int))
      let e2 := setMonthD e1 (e1.month + (months : Int))
      some (setDateD e2 (e2.day - 1))

/-- `addMonths(date, months)` from the tenants page. -/
def addMonthsD (date : CDate) (months : Int) : CDate :=
  setMonthD date (date.month + months)

/-- `monthsBetweenInclusive(from, to)` from the tenants page. -/
def monthsBetweenInclusive (f t : CDate) : Int :=
  (t.year - f.year) * 12 + (t.month - f.month) + 1

/-- The anniversary-counting loop of `getEffectiveMonthlyRentForDate`:
advance a candidate anniversary by `iy` years while it is still `<= onDate`,
counting the successful advances.  Fuel-indexed; the caller passes fuel that
always exceeds the number of iterations the JavaScript `while` performs. -/
def intervalsLoop (iy : Int) (onDate : CDate) : Nat → CDate → Nat
  | 0, _ => 0
  | fuel + 1, check =>
    if dleD (setFullYearD check (check.year + iy)) onDate then
      intervalsLoop iy onDate fuel (setFullYearD check (check.year + iy)) + 1
    else 0

/-- `getEffectiveMonthlyRentForDate(tenant, onDate)`. -/
def getEffectiveMonthlyRentForDate (tenant : Tenant) (onDate : CDate) : ℚ :=
  let start := tenant.contract_start_date
  let intervalYears : Int := max tenant.rent_increment_interval_years 0
  let pct : ℚ := max tenant.rent_increment_percentage 0 / 100
  if intervalYears = 0 ∨ pct = 0 then tenant.monthly_rent
  else
    tenant.monthly_rent *
      (1 + pct) ^
        intervalsLoop intervalYears onDate ((onDate.year - start.year + 1).toNat) start

/-- One row of the yearly breakdown (`yearLabel` kept as the year number;
the source stringifies it for display only). -/
structure YearlyBreakdownRow where
  yearLabel : Int
  months : Int
  totalAmount : ℚ
deriving DecidableEq, Repr

/-- The year-walking loop of `buildYearlyBreakdown`, fuel-indexed.  Each
iteration clips the contract window to the cursor's calendar year, skips an
empty clipped window, otherwise emits a row, and jumps the cursor to
January 1 of the next year. -/
def breakdownLoop (tenant : Tenant) (endD : CDate) : Nat → CDate → List YearlyBreakdownRow
  | 0, _ => []
  | fuel + 1, cursor =>
    if dleD cursor endD then
      let yearStart := mkDate cursor.year 0 1
      let yearEnd := mkDate cursor.year 11 31
      let periodStart := if dltD cursor yearStart then yearStart else cursor
      let periodEnd := if dltD endD yearEnd then endD else yearEnd
      if dltD periodEnd periodStart then
        breakdownLoop tenant endD fuel (mkDate (cursor.year + 1) 0 1)
      else
        let monthsInYear := monthsBetweenInclusive
          (mkDate periodStart.year periodStart.month 1)
          (mkDate periodEnd.year periodEnd.month 1)
        let monthly := getEffectiveMonthlyRentForDate tenant
          (mkDate periodStart.year periodStart.month 1)
        ⟨periodStart.year, monthsInYear, monthly * (monthsInYear : ℚ)⟩ ::
          breakdownLoop tenant endD fuel (mkDate (cursor.year + 1) 0 1)
    else []

/-- Fuel sufficient for `breakdownLoop`: the cursor's year grows by exactly
one per iteration and the loop stops once it passes `endD`'s year. -/
def breakdownFuel (start endD : CDate) : Nat := (endD.year - start.year + 1).toNat + 1

/-- `buildYearlyBreakdown(tenant)`: compute the contract end date, falling
back to start + 12 months when it is not computable, then walk the calendar
years overlapping the contract window. -/
def buildYearlyBreakdown (tenant : Tenant) : List YearlyBreakdownRow :=
  let start := tenant.contract_start_date
  let endD :=
    match calculateContractEndDate (some start)
        tenant.contract_period_years tenant.contract_period_months with
    | some e => e
    | none => addMonthsD start 12
  breakdownLoop tenant endD (breakdownFuel start endD) start

/-- The inline contract-end computation of `fetchDashboardData` (dashboard
upcoming renewals): start plus `years*12 + months` months on the month
field, then one subtracted from the day field. -/
def dashboardContractEnd (tenant : Tenant) : CDate :=
  let startDate := tenant.contract_start_date
  let totalMonths : Int :=
    (tenant.contract_period_years : Int) * 12 + (tenant.contract_period_months : Int)
  let contractEnd := setMonthD startDate (startDate.month + totalMonths)
  setDateD contractEnd (contractEnd.day - 1)

/-- The calendar predecessor of a canonical date (the specification's
"subtract one day"). -/
def prevCalendarDay (dt : CDate) : CDate :=
  if 1 < dt.day then ⟨dt.year, dt.month, dt.day - 1⟩
  else if dt.month = 0 then ⟨dt.year - 1, 11, 31⟩
  else ⟨dt.year, dt.month - 1, daysInMonth dt.year (dt.month - 1)⟩

/-- Specification-side end-date formula, following the specification's own
words: add `years` to the year component and `months` to the month component
of the start (normalizing month overflow into year carries), then subtract
one day. -/
def specContractEndDate (s : CDate) (years months : Nat) : CDate :=
  let total : Int := s.month + (months : Int)
  prevCalendarDay ⟨s.year + (years : Int) + total / 12, total % 12, s.day⟩

/-! ## Basic facts about the date embedding -/

theorem daysInMonth_bounds (y m : Int) :
    28 ≤ daysInMonth y m ∧ daysInMonth y m ≤ 31 := by
  unfold daysInMonth
  split
  · split <;> omega
  · split <;> omega

theorem daysInMonth_dec (y : Int) : daysInMonth y 11 = 31 := by
  norm_num [daysInMonth]

theorem rollF_succ (fuel : Nat) (y m d : Int) :
    rollF (fuel + 1) y m d =
      if daysInMonth y m < d then
        if m = 11 then rollF fuel (y + 1) 0 (d - daysInMonth y m)
        else rollF fuel y (m + 1) (d - daysInMonth y m)
      else ⟨y, m, d⟩ := rfl

theorem rollB_succ (fuel : Nat) (y m d : Int) :
    rollB (fuel + 1) y m d =
      if d < 1 then
        if m = 0 then rollB fuel (y - 1) 11 (d + daysInMonth (y - 1) 11)
        else rollB fuel y (m - 1) (d + daysInMonth y (m - 1))
      else ⟨y, m, d⟩ := rfl

/-- A fully in-range field triple normalizes to itself. -/
theorem mkDate_eq (y m d : Int) (hm0 : 0 ≤ m) (hm1 : m ≤ 11) (hd0 : 1 ≤ d)
    (hd1 : d ≤ daysInMonth y m) : mkDate y m d = ⟨y, m, d⟩ := by
  unfold mkDate
  rw [if_neg (by omega : ¬ d < 1), (by omega : m / 12 = 0),
    (by omega : m % 12 = m), add_zero, rollF_succ,
    if_neg (by omega : ¬ daysInMonth y m < d)]

theorem mkDate_jan1 (y : Int) : mkDate y 0 1 = ⟨y, 0, 1⟩ := by
  have h := daysInMonth_bounds y 0
  exact mkDate_eq y 0 1 (by omega) (by omega) (by omega) (by omega)

theorem mkDate_dec31 (y : Int) : mkDate y 11 31 = ⟨y, 11, 31⟩ := by
  have h := daysInMonth_dec y
  exact mkDate_eq y 11 31 (by omega) (by omega) (by omega) (by omega)

/-- Normalizing with day field 0 gives the last day of the previous month. -/
theorem mkDate_day_zero (y m : Int) (hm0 : 0 ≤ m) (hm1 : m ≤ 11) :
    mkDate y m 0 =
      if m = 0 then ⟨y - 1, 11, 31⟩ else ⟨y, m - 1, daysInMonth y (m - 1)⟩ := by
  unfold mkDate
  rw [if_pos (by omega : (0 : Int) < 1), (by omega : m / 12 = 0),
    (by omega : m % 12 = m), add_zero,
    (by norm_num : ((1 : Int) - 0).toNat / 28 + 1 + 1 = 0 + 1 + 1), rollB_succ,
    if_pos (by omega : (0 : Int) < 1)]
  by_cases hm : m = 0
  · rw [if_pos hm, if_pos hm, daysInMonth_dec, rollB_succ,
      if_neg (by omega : ¬ (0 : Int) + 31 < 1)]
    norm_num
  · have hb := daysInMonth_bounds y (m - 1)
    rw [if_neg hm, if_neg hm, rollB_succ,
      if_neg (by omega : ¬ (0 : Int) + daysInMonth y (m - 1) < 1)]
    rw [zero_add]

/-- Decrementing the day field of a canonical date gives the calendar
predecessor. -/
theorem mkDate_pred (y m d : Int) (hm0 : 0 ≤ m) (hm1 : m ≤ 11) (hd0 : 1 ≤ d)
    (hd1 : d ≤ daysInMonth y m) :
    mkDate y m (d - 1) = prevCalendarDay ⟨y, m, d⟩ := by
  unfold prevCalendarDay
  by_cases h : 1 < d
  · rw [mkDate_eq y m (d - 1) hm0 hm1 (by omega) (by omega)]
    simp only [h, if_pos]
  · have hd : d = 1 := by omega
    subst hd
    norm_num
    rw [mkDate_day_zero y m hm0 hm1]

/-- Normalization with a day field between 1 and 31 keeps the year and
yields a canonical date (day overflow never crosses December). -/
theorem mkDate_year31 (y m d : Int) (hm0 : 0 ≤ m) (hm1 : m ≤ 11) (hd0 : 1 ≤ d)
    (hd1 : d ≤ 31) :
    (mkDate y m d).year = y ∧ isCanonDate (mkDate y m d) := by
  by_cases h : d ≤ daysInMonth y m
  · rw [mkDate_eq y m d hm0 hm1 hd0 h]
    exact ⟨rfl, hm0, hm1, hd0, h⟩
  · have hm11 : m ≠ 11 := by
      intro he
      rw [he, daysInMonth_dec] at h
      omega
    have hb := daysInMonth_bounds y m
    have hb2 := daysInMonth_bounds y (m + 1)
    unfold mkDate
    rw [if_neg (by omega : ¬ d < 1), (by omega : m / 12 = 0),
      (by omega : m % 12 = m), add_zero, rollF_succ,
      if_pos (by omega : daysInMonth y m < d), if_neg hm11, rollF_succ,
      if_neg (by omega : ¬ daysInMonth y (m + 1) < d - daysInMonth y m)]
    refine ⟨rfl, ?_⟩
    unfold isCanonDate
    dsimp only
    exact ⟨by omega, by omega, by omega, by omega⟩

/-- Two field triples with the same absolute month index normalize to the
same date. -/
theorem mkDate_congr_idx (y1 mb1 y2 mb2 d : Int)
    (h : y1 * 12 + mb1 = y2 * 12 + mb2) : mkDate y1 mb1 d = mkDate y2 mb2 d := by
  unfold mkDate
  rw [(by omega : y1 + mb1 / 12 = y2 + mb2 / 12), (by omega : mb1 % 12 = mb2 % 12)]

/-! ## Facts about the anniversary loop -/

theorem setFullYearD_year (c : CDate) (hc : isCanonDate c) (y : Int) :
    (setFullYearD c y).year = y ∧ isCanonDate (setFullYearD c y) := by
  obtain ⟨h1, h2, h3, h4⟩ := hc
  have hb := daysInMonth_bounds c.year c.month
  exact mkDate_year31 y c.month c.day h1 h2 h3 (by omega)

theorem intervalsLoop_succ (iy : Int) (onDate : CDate) (fuel : Nat) (check : CDate) :
    intervalsLoop iy onDate (fuel + 1) check =
      if dleD (setFullYearD check (check.year + iy)) onDate then
        intervalsLoop iy onDate fuel (setFullYearD check (check.year + iy)) + 1
      else 0 := rfl

/-- With a fixed fuel the counted intervals grow with the reference date. -/
theorem intervalsLoop_mono (iy : Int) (d1 d2 : CDate) (h : dleD d1 d2) :
    ∀ fuel c, intervalsLoop iy d1 fuel c ≤ intervalsLoop iy d2 fuel c := by
  intro fuel
  induction fuel with
  | zero => intro c; exact Nat.le_refl 0
  | succ n ih =>
    intro c
    by_cases hc : dleD (setFullYearD c (c.year + iy)) d1
    · have hc2 : dleD (setFullYearD c (c.year + iy)) d2 := by
        unfold dleD at *
        omega
      rw [intervalsLoop_succ, if_pos hc, intervalsLoop_succ, if_pos hc2]
      exact Nat.succ_le_succ (ih _)
    · rw [intervalsLoop_succ, if_neg hc]
      exact Nat.zero_le _

/-- Once the fuel covers the year span left to the reference date, adding
more fuel does not change the count. -/
theorem intervalsLoop_stable (iy : Int) (d : CDate) (hiy : 1 ≤ iy) :
    ∀ fuel c, isCanonDate c → (d.year - c.year + 1).toNat ≤ fuel →
      intervalsLoop iy d fuel c = intervalsLoop iy d (fuel + 1) c := by
  intro fuel
  induction fuel with
  | zero =>
    intro c hc hb
    have hy := (setFullYearD_year c hc (c.year + iy)).1
    rw [intervalsLoop_succ, if_neg ?hneg]
    case hneg => unfold dleD; omega
    rfl
  | succ n ih =>
    intro c hc hb
    obtain ⟨hy, hcan⟩ := setFullYearD_year c hc (c.year + iy)
    by_cases hcond : dleD (setFullYearD c (c.year + iy)) d
    · rw [intervalsLoop_succ, if_pos hcond, intervalsLoop_succ, if_pos hcond]
      have hyle : (setFullYearD c (c.year + iy)).year ≤ d.year := by
        unfold dleD at hcond
        omega
      rw [ih _ hcan (by omega)]
    · rw [intervalsLoop_succ, if_neg hcond, intervalsLoop_succ, if_neg hcond]

theorem intervalsLoop_fuel (iy : Int) (d : CDate) (hiy : 1 ≤ iy) (c : CDate)
    (hc : isCanonDate c) (f1 f2 : Nat) (h1 : (d.year - c.year + 1).toNat ≤ f1)
    (h2 : f1 ≤ f2) : intervalsLoop iy d f1 c = intervalsLoop iy d f2 c := by
  induction f2, h2 using Nat.le_induction with
  | base => rfl
  | succ n hn ihn => rw [ihn, intervalsLoop_stable iy d hiy n c hc (by omega)]

/-! ## Facts about the yearly-breakdown loop -/

theorem breakdownLoop_nil (tenant : Tenant) (endD : CDate) (fuel : Nat)
    (cursor : CDate) (h : ¬ dleD cursor endD) :
    breakdownLoop tenant endD fuel cursor = [] := by
  cases fuel with
  | zero => rfl
  | succ n =>
    simp only [breakdownLoop]
    rw [if_neg h]

/-- Telescoping month count: over one run of the year-walking loop, the
`months` fields add up to the inclusive month span from the cursor's
(year, month) to `endD`'s (year, month). -/
theorem breakdownLoop_sum (tenant : Tenant) (endD : CDate) (he : isCanonDate endD) :
    ∀ fuel cursor, isCanonDate cursor → dleD cursor endD →
      (endD.year - cursor.year + 1).toNat ≤ fuel →
      ((breakdownLoop tenant endD fuel cursor).map YearlyBreakdownRow.months).sum =
        (endD.year - cursor.year) * 12 + (endD.month - cursor.month) + 1 := by
  intro fuel
  induction fuel with
  | zero =>
    intro cursor hc hle hfuel
    exfalso
    unfold dleD at hle
    omega
  | succ n ih =>
    intro cursor hc hle hfuel
    obtain ⟨c1, c2, c3, c4⟩ := hc
    obtain ⟨e1, e2, e3, e4⟩ := he
    have hbc := daysInMonth_bounds cursor.year cursor.month
    have hbe := daysInMonth_bounds endD.year endD.month
    have hcye : cursor.year ≤ endD.year := by unfold dleD at hle; omega
    simp only [breakdownLoop, mkDate_jan1, mkDate_dec31]
    rw [if_pos hle]
    have h1 : ¬ dltD cursor ⟨cursor.year, 0, 1⟩ := by
      unfold dltD
      dsimp only
      omega
    rw [if_neg h1]
    by_cases h2 : dltD endD ⟨cursor.year, 11, 31⟩
    · have hyy : endD.year = cursor.year := by
        unfold dltD at h2
        dsimp only at h2
        omega
      rw [if_pos h2]
      have h3 : ¬ dltD endD cursor := by
        unfold dleD at hle
        unfold dltD
        omega
      rw [if_neg h3]
      rw [mkDate_eq cursor.year cursor.month 1 c1 c2 (by norm_num) (by omega),
        mkDate_eq endD.year endD.month 1 e1 e2 (by norm_num) (by omega)]
      have h4 : ¬ dleD ⟨cursor.year + 1, 0, 1⟩ endD := by
        unfold dleD
        dsimp only
        omega
      rw [breakdownLoop_nil tenant endD n _ h4]
      simp only [List.map_cons, List.map_nil, List.sum_cons, List.sum_nil, add_zero]
      unfold monthsBetweenInclusive
      dsimp only
    · rw [if_neg h2]
      have h3 : ¬ dltD (⟨cursor.year, 11, 31⟩ : CDate) cursor := by
        unfold dltD
        dsimp only
        omega
      rw [if_neg h3]
      rw [mkDate_eq cursor.year cursor.month 1 c1 c2 (by norm_num) (by omega)]
      have hdec : daysInMonth cursor.year 11 = 31 := daysInMonth_dec cursor.year
      rw [show (mkDate (⟨cursor.year, 11, 31⟩ : CDate).year (⟨cursor.year, 11, 31⟩ : CDate).month 1) = mkDate cursor.year 11 1 from rfl,
        mkDate_eq cursor.year 11 1 (by norm_num) (by norm_num) (by norm_num) (by omega)]
      by_cases hyy : endD.year = cursor.year
      · have hnot2 : ¬ dltD endD ⟨cursor.year, 11, 31⟩ := h2
        unfold dltD at hnot2
        dsimp only at hnot2
        have h4 : ¬ dleD ⟨cursor.year + 1, 0, 1⟩ endD := by
          unfold dleD
          dsimp only
          omega
        rw [breakdownLoop_nil tenant endD n _ h4]
        simp only [List.map_cons, List.map_nil, List.sum_cons, List.sum_nil, add_zero]
        unfold monthsBetweenInclusive
        dsimp only
        omega
      · have hlt : cursor.year < endD.year := by omega
        have hcan2 : isCanonDate ⟨cursor.year + 1, 0, 1⟩ := by
          have hb2 := daysInMonth_bounds (cursor.year + 1) 0
          exact ⟨by norm_num, by norm_num, by norm_num, by dsimp only; omega⟩
        have hle2 : dleD ⟨cursor.year + 1, 0, 1⟩ endD := by
          unfold dleD
          dsimp only
          omega
        simp only [List.map_cons, List.sum_cons]
        rw [ih ⟨cursor.year + 1, 0, 1⟩ hcan2 hle2 (by dsimp only; omega)]
        unfold monthsBetweenInclusive
        dsimp only
        omega

/-! ## The computed contract end date -/

/-- For a start on the first day of a month and a positive duration
`D = 12*Y + M`, the computed end date is a canonical date whose absolute
month index is exactly `D - 1` months after the start's, and which is not
before the start. -/
theorem calcEnd_day1_spec (s : CDate) (hc : isCanonDate s) (hd : s.day = 1)
    (Y M : Nat) (hYM : 1 ≤ 12 * Y + M) :
    ∃ e, calculateContractEndDate (some s) Y M = some e ∧ isCanonDate e ∧
      e.year * 12 + e.month =
        s.year * 12 + s.month + 12 * (Y : Int) + (M : Int) - 1 ∧
      dleD s e := by
  obtain ⟨c1, c2, c3, c4⟩ := hc
  have hb1 := daysInMonth_bounds (s.year + (Y : Int)) s.month
  have he1 : setFullYearD s (s.year + (Y : Int)) = ⟨s.year + (Y : Int), s.month, 1⟩ := by
    unfold setFullYearD
    rw [hd]
    exact mkDate_eq _ _ _ c1 c2 (by norm_num) (by omega)
  have hb2 := daysInMonth_bounds
    (s.year + (Y : Int) + (s.month + (M : Int)) / 12) ((s.month + (M : Int)) % 12)
  have he2 : setMonthD ⟨s.year + (Y : Int), s.month, 1⟩ (s.month + (M : Int)) =
      ⟨s.year + (Y : Int) + (s.month + (M : Int)) / 12, (s.month + (M : Int)) % 12, 1⟩ := by
    unfold setMonthD
    dsimp only
    rw [mkDate_congr_idx (s.year + (Y : Int)) (s.month + (M : Int))
      (s.year + (Y : Int) + (s.month + (M : Int)) / 12) ((s.month + (M : Int)) % 12) 1
      (by omega)]
    exact mkDate_eq _ _ _ (by omega) (by omega) (by norm_num) (by omega)
  unfold calculateContractEndDate
  dsimp only
  rw [if_neg (by omega : ¬ (Y = 0 ∧ M = 0)), he1]
  dsimp only
  rw [he2]
  unfold setDateD
  dsimp only
  rw [(by norm_num : (1 : Int) - 1 = 0),
    mkDate_day_zero _ _ (by omega) (by omega)]
  by_cases hr : (s.month + (M : Int)) % 12 = 0
  · rw [if_pos hr]
    refine ⟨_, rfl, ?_, ?_, ?_⟩
    · have hdec := daysInMonth_dec (s.year + (Y : Int) + (s.month + (M : Int)) / 12 - 1)
      exact ⟨by norm_num, by norm_num, by dsimp only; omega, by dsimp only; omega⟩
    · dsimp only
      omega
    · unfold dleD
      dsimp only
      omega
  · rw [if_neg hr]
    have hb3 := daysInMonth_bounds
      (s.year + (Y : Int) + (s.month + (M : Int)) / 12) ((s.month + (M : Int)) % 12 - 1)
    refine ⟨_, rfl, ?_, ?_, ?_⟩
    · exact ⟨by dsimp only; omega, by dsimp only; omega, by dsimp only; omega,
        by dsimp only; omega⟩
    · dsimp only
      omega
    · unfold dleD
      dsimp only
      omega

/-! ## Claims -/

/-- C3: for every start date, `calculateContractEndDate` with zero duration
(years = 0 and months = 0) returns `none` — an explicit "no end date"
result distinct by type from every calendar date, never a sentinel date —
and likewise whenever the start date is absent. -/
theorem claim_C3 :
    (∀ s : Option CDate, calculateContractEndDate s 0 0 = none) ∧
    (∀ years months : Nat, calculateContractEndDate none years months = none) := by
  constructor
  · intro s
    cases s with
    | none => rfl
    | some d => rfl
  · intro years months
    rfl

/-- C7: `getFrequencyMonths` maps the five known billing-frequency tags to
1, 2, 3, 6, 12 respectively, and maps every other string to 1 (monthly
fallback) instead of failing. -/
theorem claim_C7 :
    getFrequencyMonths "monthly" = 1 ∧ getFrequencyMonths "bi-monthly" = 2 ∧
    getFrequencyMonths "tri-monthly" = 3 ∧ getFrequencyMonths "semi-annually" = 6 ∧
    getFrequencyMonths "yearly" = 12 ∧
    ∀ s : String, s ≠ "monthly" → s ≠ "bi-monthly" → s ≠ "tri-monthly" →
      s ≠ "semi-annually" → s ≠ "yearly" → getFrequencyMonths s = 1 := by
  refine ⟨rfl, rfl, rfl, rfl, rfl, ?_⟩
  intro s h1 h2 h3 h4 h5
  unfold getFrequencyMonths
  rw [if_neg h1, if_neg h2, if_neg h3, if_neg h4, if_neg h5]

/-- Witness for C7 at the unrecognized tag of the specification's test. -/
theorem claim_C7_witness : getFrequencyMonths "unknown-tag" = 1 :=
  claim_C7.2.2.2.2.2 "unknown-tag" (by decide) (by decide) (by decide) (by decide)
    (by decide)

/-- C5: whenever the increment interval or the increment percentage is
zero, the effective monthly rent equals the base rent for every reference
date (the guard short-circuits before the loop). -/
theorem claim_C5 (tenant : Tenant) (onDate : CDate)
    (h : tenant.rent_increment_interval_years = 0 ∨
      tenant.rent_increment_percentage = 0) :
    getEffectiveMonthlyRentForDate tenant onDate = tenant.monthly_rent := by
  unfold getEffectiveMonthlyRentForDate
  dsimp only
  rcases h with h | h
  · rw [if_pos (Or.inl (by rw [h]; exact max_self 0))]
  · rw [if_pos (Or.inr (by rw [h]; norm_num))]

/-- Witness for C5 at a concrete tenant with interval 0. -/
theorem claim_C5_witness :
    getEffectiveMonthlyRentForDate
      ⟨⟨2020, 0, 1⟩, 5, 0, 10000, "monthly", 10, 0⟩ ⟨2024, 5, 1⟩ = 10000 :=
  claim_C5 ⟨⟨2020, 0, 1⟩, 5, 0, 10000, "monthly", 10, 0⟩ ⟨2024, 5, 1⟩ (Or.inl rfl)

/-- C4: with base 10000, increment 10 percent every 2 years, start
2020-01-01, the effective monthly rent is 10000 at 2021-06-01 (0 elapsed
intervals), 11000 at 2022-01-01 (the anniversary equal to the reference
date counts as elapsed), and 12100 at 2024-06-01 (2 intervals). -/
theorem claim_C4 :
    getEffectiveMonthlyRentForDate
        ⟨⟨2020, 0, 1⟩, 5, 0, 10000, "monthly", 10, 2⟩ ⟨2021, 5, 1⟩ = 10000 ∧
    getEffectiveMonthlyRentForDate
        ⟨⟨2020, 0, 1⟩, 5, 0, 10000, "monthly", 10, 2⟩ ⟨2022, 0, 1⟩ = 11000 ∧
    getEffectiveMonthlyRentForDate
        ⟨⟨2020, 0, 1⟩, 5, 0, 10000, "monthly", 10, 2⟩ ⟨2024, 5, 1⟩ = 12100 := by
  refine ⟨?_, ?_, ?_⟩ <;>
    (unfold getEffectiveMonthlyRentForDate
     dsimp only
     rw [show ((2 : Int) ⊔ 0) = 2 from max_eq_left (by norm_num),
       show ((10 : ℚ) ⊔ 0) = 10 from max_eq_left (by norm_num)]
     rw [if_neg (by norm_num)])
  · rw [show intervalsLoop 2 ⟨2021, 5, 1⟩ (((2021 : Int) - 2020 + 1).toNat)
        ⟨2020, 0, 1⟩ = 0 from by decide]
    norm_num
  · rw [show intervalsLoop 2 ⟨2022, 0, 1⟩ (((2022 : Int) - 2020 + 1).toNat)
        ⟨2020, 0, 1⟩ = 1 from by decide]
    norm_num
  · rw [show intervalsLoop 2 ⟨2024, 5, 1⟩ (((2024 : Int) - 2020 + 1).toNat)
        ⟨2020, 0, 1⟩ = 2 from by decide]
    norm_num

/-- C8: a contract from 2023-10-01 lasting 6 months (ending 2024-03-31)
produces exactly two rows, in chronological order: year 2023 with 3 months
and year 2024 with 3 months. -/
theorem claim_C8 :
    (buildYearlyBreakdown ⟨⟨2023, 9, 1⟩, 0, 6, 10000, "monthly", 10, 2⟩).map
      (fun r => (r.yearLabel, r.months)) = [(2023, 3), (2024, 3)] := by decide

/-- C1 fails as stated for starts not on the first day of a month: a
contract of 1 month starting 2024-01-15 (ending 2024-02-14) yields a
breakdown whose `months` fields sum to 2, not to the duration 1. -/
theorem claim_C1_counterexample :
    ((buildYearlyBreakdown ⟨⟨2024, 0, 15⟩, 0, 1, 10000, "monthly", 0, 0⟩).map
      YearlyBreakdownRow.months).sum ≠
      12 * (0 : Int) + 1 := by decide

/-- C1 (amended): for every tenant whose contract start date falls on the
first day of a month and whose duration `D = 12*years + months` is at least
one month, the `months` fields of `buildYearlyBreakdown` sum to exactly
`D`, with no double-counting or gaps at calendar-year boundaries. -/
theorem claim_C1_amended (tenant : Tenant)
    (hc : isCanonDate tenant.contract_start_date)
    (hd : tenant.contract_start_date.day = 1)
    (hD : 1 ≤ 12 * tenant.contract_period_years + tenant.contract_period_months) :
    ((buildYearlyBreakdown tenant).map YearlyBreakdownRow.months).sum =
      12 * (tenant.contract_period_years : Int) +
        (tenant.contract_period_months : Int) := by
  obtain ⟨e, hce, hcanE, hidx, hlee⟩ := calcEnd_day1_spec tenant.contract_start_date
    hc hd tenant.contract_period_years tenant.contract_period_months hD
  unfold buildYearlyBreakdown
  dsimp only
  rw [hce]
  dsimp only
  rw [breakdownLoop_sum tenant e hcanE
    (breakdownFuel tenant.contract_start_date e) tenant.contract_start_date hc hlee
    (by unfold breakdownFuel; omega)]
  omega

/-- Witness for the amended C1 at a 6-month contract from 2023-10-01. -/
theorem claim_C1_witness :
    ((buildYearlyBreakdown ⟨⟨2023, 9, 1⟩, 0, 6, 10000, "monthly", 10, 2⟩).map
      YearlyBreakdownRow.months).sum = 6 := by
  have h := claim_C1_amended ⟨⟨2023, 9, 1⟩, 0, 6, 10000, "monthly", 10, 2⟩
    (by decide) rfl (by norm_num)
  simpa using h

/-- C2: for a canonical start date whose day-of-month stays valid through
the year step and in the target month, `calculateContractEndDate` returns
exactly the specification's formula: years added to the year component,
months added to the month component with overflow carried into years, then
one day subtracted. -/
theorem claim_C2 (s : CDate) (years months : Nat) (hc : isCanonDate s)
    (hYM : ¬ (years = 0 ∧ months = 0))
    (h1 : s.day ≤ daysInMonth (s.year + (years : Int)) s.month)
    (h2 : s.day ≤ daysInMonth (s.year + (years : Int) + (s.month + (months : Int)) / 12)
      ((s.month + (months : Int)) % 12)) :
    calculateContractEndDate (some s) years months =
      some (specContractEndDate s years months) := by
  obtain ⟨c1, c2, c3, c4⟩ := hc
  have he1 : setFullYearD s (s.year + (years : Int)) =
      ⟨s.year + (years : Int), s.month, s.day⟩ :=
    mkDate_eq _ _ _ c1 c2 c3 h1
  have he2 : setMonthD (⟨s.year + (years : Int), s.month, s.day⟩ : CDate)
      (s.month + (months : Int)) =
      ⟨s.year + (years : Int) + (s.month + (months : Int)) / 12,
        (s.month + (months : Int)) % 12, s.day⟩ := by
    unfold setMonthD
    dsimp only
    rw [mkDate_congr_idx (s.year + (years : Int)) (s.month + (months : Int))
      (s.year + (years : Int) + (s.month + (months : Int)) / 12)
      ((s.month + (months : Int)) % 12) s.day (by omega)]
    exact mkDate_eq _ _ _ (by omega) (by omega) c3 h2
  unfold calculateContractEndDate
  dsimp only
  rw [if_neg hYM, he1]
  dsimp only
  rw [he2]
  unfold setDateD
  dsimp only
  unfold specContractEndDate
  dsimp only
  rw [mkDate_pred _ _ _ (by omega) (by omega) c3 h2]

/-- Witness for C2: the specification's end-date inclusivity example,
2024-01-01 plus 1 year ends 2024-12-31, not 2025-01-01. -/
theorem claim_C2_witness :
    calculateContractEndDate (some ⟨2024, 0, 1⟩) 1 0 = some ⟨2024, 11, 31⟩ := by
  have h := claim_C2 ⟨2024, 0, 1⟩ 1 0 (by decide) (by decide) (by decide) (by decide)
  rw [h]
  rfl

/-- C9 fails as stated: for a contract starting 2024-02-29 (a leap day)
with duration 1 year 1 month, `calculateContractEndDate` yields 2025-03-31
while the dashboard's inline formula yields 2025-03-28. -/
theorem claim_C9_counterexample :
    calculateContractEndDate (some ⟨2024, 1, 29⟩) 1 1 ≠
      some (dashboardContractEnd ⟨⟨2024, 1, 29⟩, 1, 1, 10000, "monthly", 0, 0⟩) := by
  decide

/-- C9 (amended): whenever the start's day-of-month is still valid in the
same month of year start.year + years (every start except February 29
carried to a non-leap year), the dashboard's inline contract-end
computation agrees with `calculateContractEndDate`. -/
theorem claim_C9_amended (tenant : Tenant)
    (hc : isCanonDate tenant.contract_start_date)
    (hYM : ¬ (tenant.contract_period_years = 0 ∧ tenant.contract_period_months = 0))
    (h1 : tenant.contract_start_date.day ≤
      daysInMonth
        (tenant.contract_start_date.year + (tenant.contract_period_years : Int))
        tenant.contract_start_date.month) :
    calculateContractEndDate (some tenant.contract_start_date)
        tenant.contract_period_years tenant.contract_period_months =
      some (dashboardContractEnd tenant) := by
  obtain ⟨c1, c2, c3, c4⟩ := hc
  have he1 : setFullYearD tenant.contract_start_date
      (tenant.contract_start_date.year + (tenant.contract_period_years : Int)) =
      ⟨tenant.contract_start_date.year + (tenant.contract_period_years : Int),
        tenant.contract_start_date.month, tenant.contract_start_date.day⟩ :=
    mkDate_eq _ _ _ c1 c2 c3 h1
  unfold calculateContractEndDate dashboardContractEnd
  dsimp only
  rw [if_neg hYM, he1]
  dsimp only
  have he2 : setMonthD
      (⟨tenant.contract_start_date.year + (tenant.contract_period_years : Int),
        tenant.contract_start_date.month, tenant.contract_start_date.day⟩ : CDate)
      (tenant.contract_start_date.month + (tenant.contract_period_months : Int)) =
      setMonthD tenant.contract_start_date
        (tenant.contract_start_date.month +
          ((tenant.contract_period_years : Int) * 12 +
            (tenant.contract_period_months : Int))) := by
    unfold setMonthD
    dsimp only
    exact mkDate_congr_idx _ _ _ _ _ (by ring)
  rw [he2]

/-- Witness for the amended C9 at a 2 year 3 month contract from
2023-10-01. -/
theorem claim_C9_witness :
    calculateContractEndDate (some ⟨2023, 9, 1⟩) 2 3 =
      some (dashboardContractEnd ⟨⟨2023, 9, 1⟩, 2, 3, 10000, "monthly", 0, 0⟩) :=
  claim_C9_amended ⟨⟨2023, 9, 1⟩, 2, 3, 10000, "monthly", 0, 0⟩
    (by decide) (by decide) (by decide)

/-- C10: for a tenant with zero contract duration the end date is not
computable, and `buildYearlyBreakdown` substitutes the fallback window
ending exactly 12 months after the start (`addMonths(start, 12)`) and
still emits at least one row rather than an empty breakdown. -/
theorem claim_C10 (tenant : Tenant) (hc : isCanonDate tenant.contract_start_date)
    (hy : tenant.contract_period_years = 0)
    (hm : tenant.contract_period_months = 0) :
    buildYearlyBreakdown tenant =
      breakdownLoop tenant (addMonthsD tenant.contract_start_date 12)
        (breakdownFuel tenant.contract_start_date
          (addMonthsD tenant.contract_start_date 12))
        tenant.contract_start_date ∧
    buildYearlyBreakdown tenant ≠ [] := by
  obtain ⟨c1, c2, c3, c4⟩ := hc
  have hb := daysInMonth_bounds tenant.contract_start_date.year
    tenant.contract_start_date.month
  have hnone : calculateContractEndDate (some tenant.contract_start_date)
      tenant.contract_period_years tenant.contract_period_months = none := by
    rw [hy, hm]
    rfl
  have heq : buildYearlyBreakdown tenant =
      breakdownLoop tenant (addMonthsD tenant.contract_start_date 12)
        (breakdownFuel tenant.contract_start_date
          (addMonthsD tenant.contract_start_date 12))
        tenant.contract_start_date := by
    unfold buildYearlyBreakdown
    dsimp only
    rw [hnone]
  refine ⟨heq, ?_⟩
  rw [heq]
  have hE : (addMonthsD tenant.contract_start_date 12).year =
      tenant.contract_start_date.year + 1 ∧
      isCanonDate (addMonthsD tenant.contract_start_date 12) := by
    unfold addMonthsD setMonthD
    rw [mkDate_congr_idx tenant.contract_start_date.year
      (tenant.contract_start_date.month + 12)
      (tenant.contract_start_date.year + 1) tenant.contract_start_date.month
      tenant.contract_start_date.day (by ring)]
    exact mkDate_year31 _ _ _ c1 c2 c3 (by omega)
  obtain ⟨hE1, hE2⟩ := hE
  have hle : dleD tenant.contract_start_date
      (addMonthsD tenant.contract_start_date 12) := by
    unfold dleD
    omega
  unfold breakdownFuel
  simp only [breakdownLoop, mkDate_jan1, mkDate_dec31]
  rw [if_pos hle]
  have h1 : ¬ dltD tenant.contract_start_date
      ⟨tenant.contract_start_date.year, 0, 1⟩ := by
    unfold dltD
    dsimp only
    omega
  rw [if_neg h1]
  have h2 : ¬ dltD (addMonthsD tenant.contract_start_date 12)
      ⟨tenant.contract_start_date.year, 11, 31⟩ := by
    unfold dltD
    dsimp only
    omega
  rw [if_neg h2]
  have h3 : ¬ dltD (⟨tenant.contract_start_date.year, 11, 31⟩ : CDate)
      tenant.contract_start_date := by
    unfold dltD
    dsimp only
    omega
  rw [if_neg h3]
  exact List.cons_ne_nil _ _

/-- Witness for C10 at a concrete zero-duration tenant. -/
theorem claim_C10_witness :
    buildYearlyBreakdown ⟨⟨2024, 0, 15⟩, 0, 0, 10000, "monthly", 0, 0⟩ ≠ [] :=
  (claim_C10 ⟨⟨2024, 0, 15⟩, 0, 0, 10000, "monthly", 0, 0⟩ (by decide) rfl rfl).2

/-- C6: with a positive increment percentage and a nonnegative base rent,
the effective monthly rent is non-decreasing in the reference date. -/
theorem claim_C6 (tenant : Tenant) (hc : isCanonDate tenant.contract_start_date)
    (hbase : 0 ≤ tenant.monthly_rent)
    (hpct : 0 < tenant.rent_increment_percentage)
    (d1 d2 : CDate) (hd : dleD d1 d2) :
    getEffectiveMonthlyRentForDate tenant d1 ≤
      getEffectiveMonthlyRentForDate tenant d2 := by
  unfold getEffectiveMonthlyRentForDate
  dsimp only
  by_cases hguard : max tenant.rent_increment_interval_years 0 = 0 ∨
      max tenant.rent_increment_percentage 0 / 100 = (0 : ℚ)
  · rw [if_pos hguard, if_pos hguard]
  · rw [if_neg hguard, if_neg hguard]
    push_neg at hguard
    have h0 : (0 : Int) ≤ max tenant.rent_increment_interval_years 0 :=
      le_max_right _ _
    have hiy : 1 ≤ max tenant.rent_increment_interval_years 0 := by omega
    have hpos : (0 : ℚ) ≤ max tenant.rent_increment_percentage 0 / 100 :=
      div_nonneg (le_max_right _ _) (by norm_num)
    have hyr : d1.year ≤ d2.year := by
      unfold dleD at hd
      omega
    have hcount : intervalsLoop (max tenant.rent_increment_interval_years 0) d1
        ((d1.year - tenant.contract_start_date.year + 1).toNat)
        tenant.contract_start_date ≤
        intervalsLoop (max tenant.rent_increment_interval_years 0) d2
        ((d2.year - tenant.contract_start_date.year + 1).toNat)
        tenant.contract_start_date := by
      rw [intervalsLoop_fuel (max tenant.rent_increment_interval_years 0) d1 hiy
        tenant.contract_start_date hc
        ((d1.year - tenant.contract_start_date.year + 1).toNat)
        ((d2.year - tenant.contract_start_date.year + 1).toNat)
        (Nat.le_refl _) (by omega)]
      exact intervalsLoop_mono _ d1 d2 hd _ _
    have hone : (1 : ℚ) ≤ 1 + max tenant.rent_increment_percentage 0 / 100 := by
      linarith
    exact mul_le_mul_of_nonneg_left (pow_le_pow_right₀ hone hcount) hbase

/-- Witness for C6 at a concrete increasing-rent tenant and date pair. -/
theorem claim_C6_witness :
    getEffectiveMonthlyRentForDate
        ⟨⟨2020, 0, 1⟩, 5, 0, 10000, "monthly", 10, 2⟩ ⟨2021, 5, 1⟩ ≤
      getEffectiveMonthlyRentForDate
        ⟨⟨2020, 0, 1⟩, 5, 0, 10000, "monthly", 10, 2⟩ ⟨2024, 5, 1⟩ :=
  claim_C6 ⟨⟨2020, 0, 1⟩, 5, 0, 10000, "monthly", 10, 2⟩ (by decide) (by norm_num)
    (by norm_num) ⟨2021, 5, 1⟩ ⟨2024, 5, 1⟩ (by decide)
